import Mathlib

/-!
Verification of the kerya-backend booking lifecycle and ticket inventory engine.

The definitions below are a shallow embedding of the Python sources:
  * `kerya/app/models/booking.py`      (lodging booking state machine)
  * `kerya/app/models/user.py`         (user roles)
  * `kerya/app/models/listing.py`      (listing)
  * `kerya/app/services/bookings_service.py`
  * `kerya/app/models/ticket.py`       (event ticket types, bookings, tickets)
  * `kerya/app/serializers/tickets_serilalizers.py`
  * `kerya/app/services/tickets_service.py`

Modelling conventions:
  * database ids (UUID primary keys) are `Nat`;
  * dates are day numbers (`Int`), datetimes are `Int` instants passed in as
    an explicit `now` parameter (`timezone.now()`);
  * `Decimal` money amounts are `Int` (no claim depends on decimal scale);
  * fallible operations return `Except KError`; an `Except.error` result models
    a raised exception, so under `transaction.atomic` nothing is persisted;
  * Django's `save(update_fields=[...])` is modelled at each call site by
    copying exactly the listed fields from the recomputed in-memory instance
    onto the stored row; fields not listed keep their stored values.
-/

/-- Error taxonomy: one constructor per distinct raise site reached by the
modelled operations.  `inactiveBooking` is the spec's InactiveBookingError
(`ValidationError "This booking is inactive and cannot be modified."`),
`availabilityConflict` is the spec's AvailabilityConflict
(`ValidationError {dates: ...}`), the `permission*` constructors are DRF
`PermissionDenied`, `notFound` is Http404 / `NotFound`. -/
inductive KError where
  | inactiveBooking
  | onlyGuestCancelRequested
  | onlyHostGuestCancel
  | permissionNotGuest
  | permissionNotHost
  | inactiveBookingFetch
  | listingTypeMismatch
  | availabilityConflict
  | notFound
  | notAnEvent
  | linesMissing
  | invalidQuantity
  | linesNotFound
  | lineNotFound
  | lineWrongEvent
  | lineNotAvailable
  | lineExceedsAvailable
  | lineExceedsMaxPerUser
  | cannotConfirmCancelled
  | bookingLinesUnavailable
  | malformedLines
  | ticketTypeMissing
  | ticketNotUsable
  | ticketAlreadyUsed
deriving DecidableEq, Repr

/-- Listing.type choices: house | hotel | event. -/
inductive LType where
  | house
  | hotel
  | event
deriving DecidableEq, Repr

/-- Listing (kerya/app/models/listing.py).  Only the fields the booking and
ticket engines read are modelled.  `price_per_night` is the nightly price the
booking model reads via `self.listing.price_per_night` (stored on the
listing's house detail record in the schema). -/
structure Listing where
  id : Nat
  owner : Nat
  type : LType
  price_per_night : Int
deriving DecidableEq, Repr

/-- BookingStatus choices (kerya/app/models/booking.py). -/
inductive BookingStatus where
  | requested
  | accepted
  | declined
  | cancelled_host
  | cancelled_guest
  | cancelled_request
  | checked_in
  | checked_out
  | no_show
deriving DecidableEq, Repr

/-- Membership test `status in [REQUESTED, ACCEPTED, CHECKED_IN]` used by
`Booking.save` to recompute `is_active`. -/
def isActiveStatus : BookingStatus → Bool
  | .requested => true
  | .accepted => true
  | .checked_in => true
  | _ => false

/-- Lodging Booking row (kerya/app/models/booking.py).  `nights` is a Python
property, not a column, so it is a function below.  `updated_at`/`created_at`
are not modelled (no claim mentions them). -/
structure Booking where
  id : Nat
  listing : Listing
  guest : Nat
  start_date : Int
  end_date : Int
  price_total : Int
  status : BookingStatus
  is_active : Bool
  decision_at : Option Int
  cancelled_at : Option Int
  check_in_at : Option Int
  check_out_at : Option Int
deriving DecidableEq, Repr

/-- `Booking.nights` property: `(end_date - start_date).days`. -/
def Booking.nights (b : Booking) : Int :=
  b.end_date - b.start_date

/-- `Booking.host` property: `self.listing.owner`. -/
def Booking.host (b : Booking) : Nat :=
  b.listing.owner

/-- In-memory effect of `Booking.save`: before the SQL write it recomputes
`price_total = nights * listing.price_per_night` and
`is_active = status in [REQUESTED, ACCEPTED, CHECKED_IN]`. -/
def Booking.save_recompute (b : Booking) : Booking :=
  { b with
    price_total := b.nights * b.listing.price_per_night
    is_active := isActiveStatus b.status }

/-- `Booking.cancel(user, by)`: `ensure_active`, then pick the cancelled
status; `save(update_fields=["status", "cancelled_at", "updated_at",
"is_active"])` persists exactly those fields of the recomputed instance.
Returns the stored row. -/
def Booking.cancel (b : Booking) (userPk : Nat) (byArg : String) (now : Int) :
    Except KError Booking :=
  if b.is_active = false then .error .inactiveBooking
  else
    match
      (if b.status = .requested then
        if byArg = "guest" then Except.ok BookingStatus.cancelled_request
        else .error .onlyGuestCancelRequested
      else if userPk = b.host then .ok .cancelled_host
      else if userPk = b.guest then .ok .cancelled_guest
      else .error .onlyHostGuestCancel) with
    | .error e => .error e
    | .ok newStatus =>
      let m := Booking.save_recompute
        { b with status := newStatus, cancelled_at := some now, is_active := false }
      .ok { b with status := m.status, cancelled_at := m.cancelled_at,
                   is_active := m.is_active }

/-- `Booking.accept()`: `ensure_active`, set ACCEPTED and `decision_at`;
`save(update_fields=["status", "decision_at", "updated_at", "is_active"])`. -/
def Booking.accept (b : Booking) (now : Int) : Except KError Booking :=
  if b.is_active = false then .error .inactiveBooking
  else
    let m := Booking.save_recompute
      { b with status := .accepted, decision_at := some now, is_active := true }
    .ok { b with status := m.status, decision_at := m.decision_at,
                 is_active := m.is_active }

/-- `Booking.decline()`: `ensure_active`, set DECLINED and `decision_at`;
`save(update_fields=["status", "decision_at", "updated_at", "is_active"])`. -/
def Booking.decline (b : Booking) (now : Int) : Except KError Booking :=
  if b.is_active = false then .error .inactiveBooking
  else
    let m := Booking.save_recompute
      { b with status := .declined, decision_at := some now, is_active := false }
    .ok { b with status := m.status, decision_at := m.decision_at,
                 is_active := m.is_active }

/-- `Booking.check_in()`: `ensure_active`, set CHECKED_IN and `check_in_at`;
`save(update_fields=["status", "check_in_at", "updated_at"])` — note that
`is_active` and `price_total` are NOT in the update list. -/
def Booking.check_in (b : Booking) (now : Int) : Except KError Booking :=
  if b.is_active = false then .error .inactiveBooking
  else
    let m := Booking.save_recompute
      { b with status := .checked_in, check_in_at := some now }
    .ok { b with status := m.status, check_in_at := m.check_in_at }

/-- `Booking.check_out()`: `ensure_active`, set CHECKED_OUT and
`check_out_at`; `save(update_fields=["status", "check_out_at",
"updated_at"])` — `is_active` and `price_total` are NOT in the update list,
so the recomputed values are dropped and the stored row keeps its old ones. -/
def Booking.check_out (b : Booking) (now : Int) : Except KError Booking :=
  if b.is_active = false then .error .inactiveBooking
  else
    let m := Booking.save_recompute
      { b with status := .checked_out, check_out_at := some now }
    .ok { b with status := m.status, check_out_at := m.check_out_at }

/-- `Booking.no_show()`: `ensure_active`, set NO_SHOW;
`save(update_fields=["status", "updated_at"])` — again `is_active` is not
persisted. -/
def Booking.no_show (b : Booking) : Except KError Booking :=
  if b.is_active = false then .error .inactiveBooking
  else
    let m := Booking.save_recompute { b with status := .no_show }
    .ok { b with status := m.status }

/-- Applying a transition to the stored bookings table: on success the
booking's row is replaced, on a raised exception nothing is written. -/
def applyTransition (stored : List Booking) (b : Booking)
    (f : Booking → Except KError Booking) : List Booking :=
  match f b with
  | .error _ => stored
  | .ok b' => stored.map (fun x => if x.id = b.id then b' else x)

/-- User.ROLE_CHOICES (kerya/app/models/user.py): visitor | host | admin.
There is no "guest" role. -/
inductive Role where
  | visitor
  | host
  | admin
deriving DecidableEq, Repr

/-- The literal string stored in `User.role`. -/
def Role.str : Role → String
  | .visitor => "visitor"
  | .host => "host"
  | .admin => "admin"

/-- Authenticated actor: `{pk, role}`. -/
structure UserM where
  pk : Nat
  role : Role
deriving DecidableEq, Repr

/-- `BookingService._get_booking_as_guest_or_host`: permission checks, then
the inactive guard.  The booking itself is already fetched (404 handled by
the caller's lookup). -/
def get_booking_as_guest_or_host (b : Booking) (user : UserM) (role : String)
    (include_inactive : Bool) : Except KError Booking :=
  if role = "guest" ∧ b.guest ≠ user.pk then .error .permissionNotGuest
  else if role = "host" ∧ ¬(b.host = user.pk ∨ b.guest = user.pk) then
    .error .permissionNotHost
  else if include_inactive = false ∧ b.is_active = false then
    .error .inactiveBookingFetch
  else .ok b

/-- `BookingService.cancel_booking`: `by = user.role`, fetch with
`role=by, include_inactive=True`, then `booking.cancel(by=by, user=user)`. -/
def cancel_booking_service (b : Booking) (user : UserM) (now : Int) :
    Except KError Booking :=
  match get_booking_as_guest_or_host b user user.role.str true with
  | .error e => .error e
  | .ok bk => bk.cancel user.pk user.role.str now

/-- `BookingService.accept_house_booking`: fetch with `role="host",
include_inactive=True`, then `booking.accept()`. -/
def accept_house_booking (b : Booking) (user : UserM) (now : Int) :
    Except KError Booking :=
  match get_booking_as_guest_or_host b user "host" true with
  | .error e => .error e
  | .ok bk => bk.accept now

/-- `BookingService._check_availability`: any active booking on the same
listing with status REQUESTED or ACCEPTED whose half-open date range
overlaps the requested one. -/
def check_availability (stored : List Booking) (listing : Listing)
    (sd ed : Int) : Bool :=
  stored.any (fun bk =>
    decide (bk.listing.id = listing.id ∧
      (bk.status = .requested ∨ bk.status = .accepted) ∧
      bk.start_date < ed ∧ sd < bk.end_date ∧ bk.is_active = true))

/-- `BookingService._create_hotel_booking` (with the listing-type check of
`create_hotel_booking`/`_get_listing_or_404`): availability check, then
`Booking.objects.create(..., status=ACCEPTED, decision_at=now,
is_active=True)`; `create` runs the full `save`, recomputing the derived
fields. -/
def create_hotel_booking (stored : List Booking) (listing : Listing)
    (guestPk : Nat) (sd ed now : Int) (newId : Nat) :
    Except KError (Booking × List Booking) :=
  if listing.type ≠ .hotel then .error .listingTypeMismatch
  else if check_availability stored listing sd ed then .error .availabilityConflict
  else
    let b := Booking.save_recompute
      { id := newId, listing := listing, guest := guestPk,
        start_date := sd, end_date := ed, price_total := 0,
        status := .accepted, is_active := true, decision_at := some now,
        cancelled_at := none, check_in_at := none, check_out_at := none }
    .ok (b, stored ++ [b])

/-- `BookingService._create_house_booking` (with the listing-type check of
`create_house_booking`): availability check, then
`Booking.objects.create(..., status=REQUESTED, decision_at=now,
is_active=True)`. -/
def create_house_booking (stored : List Booking) (listing : Listing)
    (guestPk : Nat) (sd ed now : Int) (newId : Nat) :
    Except KError (Booking × List Booking) :=
  if listing.type ≠ .house then .error .listingTypeMismatch
  else if check_availability stored listing sd ed then .error .availabilityConflict
  else
    let b := Booking.save_recompute
      { id := newId, listing := listing, guest := guestPk,
        start_date := sd, end_date := ed, price_total := 0,
        status := .requested, is_active := true, decision_at := some now,
        cancelled_at := none, check_in_at := none, check_out_at := none }
    .ok (b, stored ++ [b])

/-- Stored table after a create attempt: unchanged when an exception was
raised. -/
def commitBookings (stored : List Booking)
    (r : Except KError (Booking × List Booking)) : List Booking :=
  match r with
  | .error _ => stored
  | .ok (_, stored') => stored'

/-- Sample house listing used by the concrete fixtures. -/
def listingH : Listing :=
  { id := 1, owner := 1, type := .house, price_per_night := 100 }

/-- Sample hotel listing used by the concrete fixtures. -/
def listingHtl : Listing :=
  { id := 4, owner := 1, type := .hotel, price_per_night := 100 }

/-- A declined (inactive) booking on `listingH`. -/
def bInactive : Booking :=
  { id := 10, listing := listingH, guest := 2, start_date := 0, end_date := 2,
    price_total := 200, status := .declined, is_active := false,
    decision_at := some 1, cancelled_at := none, check_in_at := none,
    check_out_at := none }

/-- An active REQUESTED booking on `listingH` (guest 2, host 1). -/
def bRequested : Booking :=
  { id := 11, listing := listingH, guest := 2, start_date := 0, end_date := 2,
    price_total := 200, status := .requested, is_active := true,
    decision_at := none, cancelled_at := none, check_in_at := none,
    check_out_at := none }

/-- An active CHECKED_IN booking on `listingH`. -/
def bCheckedIn : Booking :=
  { id := 12, listing := listingH, guest := 2, start_date := 0, end_date := 2,
    price_total := 200, status := .checked_in, is_active := true,
    decision_at := some 1, cancelled_at := none, check_in_at := some 2,
    check_out_at := none }

/-- An active ACCEPTED booking on the hotel listing for dates [1, 3). -/
def bAcceptedHtl : Booking :=
  { id := 13, listing := listingHtl, guest := 2, start_date := 1, end_date := 3,
    price_total := 200, status := .accepted, is_active := true,
    decision_at := some 1, cancelled_at := none, check_in_at := none,
    check_out_at := none }

/-- C1: every transition on a booking whose `is_active` flag is false fails
with InactiveBookingError and leaves the stored table unchanged; and after an
active REQUESTED booking is declined the stored row has status DECLINED and
`is_active = false`, so a subsequent `accept()` fails with
InactiveBookingError. -/
theorem c1_inactive_guard (b : Booking) (uPk : Nat) (byArg : String)
    (b2 : Booking) (now1 now2 now3 : Int)
    (h : b.is_active = false)
    (h2act : b2.is_active = true) (h2st : b2.status = .requested) :
    (b.cancel uPk byArg now1 = .error .inactiveBooking ∧
     b.accept now1 = .error .inactiveBooking ∧
     b.decline now1 = .error .inactiveBooking ∧
     b.check_in now1 = .error .inactiveBooking ∧
     b.check_out now1 = .error .inactiveBooking ∧
     b.no_show = .error .inactiveBooking ∧
     (∀ stored,
       applyTransition stored b (fun x => x.cancel uPk byArg now1) = stored ∧
       applyTransition stored b (fun x => x.accept now1) = stored ∧
       applyTransition stored b (fun x => x.decline now1) = stored ∧
       applyTransition stored b (fun x => x.check_in now1) = stored ∧
       applyTransition stored b (fun x => x.check_out now1) = stored ∧
       applyTransition stored b Booking.no_show = stored)) ∧
    (∃ d, b2.decline now2 = .ok d ∧ d.status = .declined ∧
      d.is_active = false ∧ d.accept now3 = .error .inactiveBooking) := by
  constructor
  · refine ⟨?_, ?_, ?_, ?_, ?_, ?_, ?_⟩ <;>
      simp [Booking.cancel, Booking.accept, Booking.decline, Booking.check_in,
        Booking.check_out, Booking.no_show, applyTransition, h]
  · refine ⟨{ b2 with status := BookingStatus.declined, decision_at := some now2, is_active := false }, ?_, rfl, rfl, ?_⟩ <;>
      simp [Booking.decline, Booking.accept, Booking.save_recompute,
        isActiveStatus, h2act]

/-- C1 witness: the inactive fixture `bInactive` and the active REQUESTED
fixture `bRequested` instantiate the guard theorem. -/
theorem c1_witness :
    bInactive.accept 5 = .error .inactiveBooking ∧
    (∃ d, bRequested.decline 5 = .ok d ∧ d.status = .declined ∧
      d.is_active = false ∧ d.accept 6 = .error .inactiveBooking) := by
  have h := c1_inactive_guard bInactive 2 "guest" bRequested 5 5 6 rfl rfl rfl
  exact ⟨h.1.2.1, h.2⟩

/-- C2: the claimed persist invariant fails for `check_out()` and
`no_show()`: their `update_fields` lists omit `is_active`, so although
`save()` recomputes `is_active` in memory, the stored row keeps the stale
value `true` while its status becomes the terminal CHECKED_OUT / NO_SHOW
(for which `isActiveStatus` is `false`). -/
theorem c2_checkout_keeps_stale_is_active :
    (∃ b', bCheckedIn.check_out 7 = .ok b' ∧ b'.status = .checked_out ∧
      b'.is_active = true ∧ isActiveStatus b'.status = false) ∧
    (∃ b2, bCheckedIn.no_show = .ok b2 ∧ b2.status = .no_show ∧
      b2.is_active = true ∧ isActiveStatus b2.status = false) := by
  constructor
  · exact ⟨{ bCheckedIn with status := BookingStatus.checked_out, check_out_at := some 7 }, rfl, rfl, rfl, rfl⟩
  · exact ⟨{ bCheckedIn with status := BookingStatus.no_show }, rfl, rfl, rfl, rfl⟩

/-- C3: the service layer passes `by = user.role`, and `User.role` is one of
"visitor" / "host" / "admin" — never the string "guest" that
`Booking.cancel` compares against.  Hence cancelling a booking in status
REQUESTED fails for every actor; no caller (in particular not the booking's
guest) can reach CANCELLED_REQUEST through `cancel_booking`. -/
theorem c3_cancel_requested_always_fails (b : Booking) (u : UserM) (now : Int)
    (hst : b.status = .requested) :
    ∃ e, cancel_booking_service b u now = .error e := by
  unfold cancel_booking_service
  cases hget : get_booking_as_guest_or_host b u u.role.str true with
  | error e => exact ⟨e, rfl⟩
  | ok bk =>
    have hbk : bk = b := by
      unfold get_booking_as_guest_or_host at hget
      split_ifs at hget <;> simp_all
    subst hbk
    cases hact : bk.is_active <;>
      cases hrole : u.role <;>
        simp [Booking.cancel, Role.str, hrole, hact, hst]

/-- C3 witness: the guest of `bRequested` (pk 2, role "visitor") cannot
cancel their own requested booking. -/
theorem c3_witness :
    ∃ e, cancel_booking_service bRequested { pk := 2, role := .visitor } 5 =
      .error e :=
  c3_cancel_requested_always_fails bRequested { pk := 2, role := .visitor } 5 rfl

/-- C7: if an active booking with status REQUESTED or ACCEPTED on the same
listing overlaps the requested half-open range (existing.start < new.end and
new.start < existing.end), both house and hotel booking creation fail with
AvailabilityConflict and the stored bookings table is unchanged. -/
theorem c7_overlap_conflict (stored : List Booking) (listing : Listing)
    (guestPk : Nat) (sd ed now : Int) (newId : Nat)
    (hov : ∃ bk ∈ stored, bk.listing.id = listing.id ∧
      (bk.status = .requested ∨ bk.status = .accepted) ∧
      bk.start_date < ed ∧ sd < bk.end_date ∧ bk.is_active = true) :
    (listing.type = .house →
      create_house_booking stored listing guestPk sd ed now newId =
        .error .availabilityConflict ∧
      commitBookings stored
        (create_house_booking stored listing guestPk sd ed now newId) = stored) ∧
    (listing.type = .hotel →
      create_hotel_booking stored listing guestPk sd ed now newId =
        .error .availabilityConflict ∧
      commitBookings stored
        (create_hotel_booking stored listing guestPk sd ed now newId) = stored) := by
  have hav : check_availability stored listing sd ed = true := by
    obtain ⟨bk, hmem, hprops⟩ := hov
    unfold check_availability
    rw [List.any_eq_true]
    exact ⟨bk, hmem, by simp [hprops]⟩
  constructor
  · intro ht
    simp [create_house_booking, commitBookings, ht, hav]
  · intro ht
    simp [create_hotel_booking, commitBookings, ht, hav]

/-- C7 witness: `bAcceptedHtl` occupies [1, 3) on the hotel listing, so a
second request for [2, 4) fails with AvailabilityConflict and persists
nothing. -/
theorem c7_witness :
    create_hotel_booking [bAcceptedHtl] listingHtl 3 2 4 9 42 =
      .error .availabilityConflict ∧
    commitBookings [bAcceptedHtl]
      (create_hotel_booking [bAcceptedHtl] listingHtl 3 2 4 9 42) =
      [bAcceptedHtl] :=
  (c7_overlap_conflict [bAcceptedHtl] listingHtl 3 2 4 9 42
    ⟨bAcceptedHtl, by decide, by decide, by decide, by decide, by decide⟩).2 rfl

/-- C8: the "host" branch of `_get_booking_as_guest_or_host` also admits the
booking's guest (`booking.host.pk == user.pk or booking.guest.pk ==
user.pk`), so the guest of `bRequested` (pk 2, not the listing owner pk 1)
can call `accept_house_booking` successfully — no PermissionError is raised
and the booking becomes ACCEPTED. -/
theorem c8_guest_can_accept :
    bRequested.guest = 2 ∧ bRequested.host = 1 ∧
    ∃ b', accept_house_booking bRequested { pk := 2, role := .visitor } 9 =
      .ok b' ∧ b'.status = .accepted := by
  exact ⟨rfl, rfl, { bRequested with status := BookingStatus.accepted, decision_at := some 9, is_active := true }, rfl, rfl⟩

/-! ### Python string machinery

`EventBooking.payment_reference` stores the reserved lines serialized as
`"LINES|<ticket_type_id>:<qty>,<ticket_type_id>:<qty>"` (see
`TicketsService.create_booking`).  Python strings are modelled as lists of
character codes (`PyStr`), `str.split` as `pySplit`, the f-string rendering
of a quantity or id as `natToChars` (decimal digits), and `int(...)` as
`charsToNat?`. -/
abbrev PyStr := List Nat

/-- Character code of ":" (the separator inside one line pair). -/
def colonCh : Nat := 58

/-- Character code of "," (the separator between line pairs). -/
def commaCh : Nat := 44

/-- Character codes of the literal prefix "LINES|". -/
def linesTag : PyStr := [76, 73, 78, 69, 83, 124]

/-- Code of the decimal digit d. -/
def digitCh (d : Nat) : Nat := 48 + d

/-- Decimal rendering helper, structurally recursive on a fuel bound. -/
def natToCharsAux : Nat → Nat → PyStr
  | 0, _ => []
  | fuel + 1, n =>
    if n < 10 then [digitCh n]
    else natToCharsAux fuel (n / 10) ++ [digitCh (n % 10)]

/-- Python's decimal rendering `f"{n}"` of a natural number. -/
def natToChars (n : Nat) : PyStr := natToCharsAux (n + 1) n

/-- Left fold of decimal digits, `none` on a non-digit (Python `int`
raising ValueError). -/
def parseDigits : Nat → PyStr → Option Nat
  | acc, [] => some acc
  | acc, c :: rest =>
    if 48 ≤ c ∧ c ≤ 57 then parseDigits (acc * 10 + (c - 48)) rest
    else none

/-- Python `int(s)`: fails on the empty string or any non-digit. -/
def charsToNat? : PyStr → Option Nat
  | [] => none
  | s => parseDigits 0 s

/-- Python `s.split(sep)` for a one-character separator: always returns at
least one (possibly empty) part. -/
def pySplit (sep : Nat) : PyStr → List PyStr
  | [] => [[]]
  | c :: rest =>
    let r := pySplit sep rest
    if c = sep then [] :: r
    else
      match r with
      | [] => [[c]]
      | h :: t => (c :: h) :: t

/-- Python `sep.join(parts)` for a one-character separator. -/
def pyJoin (sep : Nat) : List PyStr → PyStr
  | [] => []
  | [x] => x
  | x :: xs => x ++ sep :: pyJoin sep xs

/-- One line pair rendered as `f"{ticket_type}:{quantity}"`. -/
def encodeLine (tid qty : Nat) : PyStr :=
  natToChars tid ++ colonCh :: natToChars qty

/-- The whole `payment_reference` written by `create_booking`:
`"LINES|" + ",".join(f"{tid}:{qty}" for each line)`. -/
def encodeLines (lines : List (Nat × Nat)) : PyStr :=
  linesTag ++ pyJoin commaCh (lines.map (fun p => encodeLine p.1 p.2))

/-- EventTicketType row (kerya/app/models/ticket.py). -/
structure EventTicketType where
  id : Nat
  event_id : Nat
  name : String
  price : Int
  total_quantity : Nat
  available_quantity : Nat
  max_per_user : Nat
  is_active : Bool
deriving DecidableEq, Repr

/-- `EventTicketType.is_available` property:
`is_active and available_quantity > 0`. -/
def EventTicketType.is_available (tt : EventTicketType) : Bool :=
  tt.is_active && decide (0 < tt.available_quantity)

/-- EventBookingStatus choices: pending | confirmed | cancelled. -/
inductive EventBookingStatus where
  | pending
  | confirmed
  | cancelled
deriving DecidableEq, Repr

/-- EventBooking row (kerya/app/models/ticket.py).  `booking_reference` and
`customer_phone` are not read by any modelled operation and are omitted. -/
structure EventBooking where
  id : Nat
  event_id : Nat
  user_id : Nat
  total_tickets : Nat
  total_amount : Int
  customer_name : String
  customer_email : String
  status : EventBookingStatus
  confirmed_at : Option Int
  cancelled_at : Option Int
  payment_method : String
  payment_reference : PyStr
deriving DecidableEq, Repr

/-- EventTicketStatus choices: valid | used | cancelled. -/
inductive EventTicketStatus where
  | valid
  | used
  | cancelled
deriving DecidableEq, Repr

/-- EventTicket row (kerya/app/models/ticket.py).  The generated unique
`ticket_number` and `qr_code` strings are modelled as fresh naturals drawn
from the state's id counter. -/
structure EventTicket where
  id : Nat
  booking_id : Nat
  ticket_type_id : Nat
  ticket_number : Nat
  qr_code : Nat
  holder_name : String
  holder_email : String
  status : EventTicketStatus
  used_at : Option Int
deriving DecidableEq, Repr

/-- The persistent store the ticket service operates on.  `next_id` models
the supply of fresh unique identifiers (uuid4 primary keys and generated
ticket numbers / qr codes).  Lists are kept in insertion order (`tickets`
matches the `created_at` ordering of `EventTicket.Meta`). -/
structure TicketState where
  ticket_types : List EventTicketType
  bookings : List EventBooking
  tickets : List EventTicket
  next_id : Nat
deriving DecidableEq, Repr

/-- Per-line validation loop of `TicketsService.create_booking`: looks each
line's ticket type up in the locked map, checks event membership,
availability, quantity against stock and per-user limit, and accumulates
`total_tickets` and `total_amount`.  The first violation aborts the whole
operation. -/
def validateLines (event : Listing) (tts : List EventTicketType) :
    List (Nat × Nat) → Except KError (Nat × Int)
  | [] => .ok (0, 0)
  | (tid, qty) :: rest =>
    match tts.find? (fun tt => tt.id = tid) with
    | none => .error .lineNotFound
    | some tt =>
      if tt.event_id ≠ event.id then .error .lineWrongEvent
      else if tt.is_available = false then .error .lineNotAvailable
      else if tt.available_quantity < qty then .error .lineExceedsAvailable
      else if tt.max_per_user < qty then .error .lineExceedsMaxPerUser
      else
        match validateLines event tts rest with
        | .error e => .error e
        | .ok (t, a) => .ok (qty + t, tt.price * qty + a)

/-- Reservation loop of `create_booking`: per line, decrement the ticket
type's `available_quantity` by the line quantity
(`F('available_quantity') - qty` saved back to the row). -/
def reserveAll (tts : List EventTicketType) :
    List (Nat × Nat) → List EventTicketType
  | [] => tts
  | (tid, qty) :: rest =>
    reserveAll
      (tts.map (fun tt =>
        if tt.id = tid then
          { tt with available_quantity := tt.available_quantity - qty }
        else tt))
      rest

/-- The PENDING EventBooking row written by `create_booking`: totals from
the validation loop, customer info from the request, the reserved lines
serialized into `payment_reference`. -/
def newEventBooking (bid : Nat) (event : Listing) (userId : Nat)
    (total_tickets : Nat) (total_amount : Int)
    (customer_name customer_email : String) (lines : List (Nat × Nat)) :
    EventBooking :=
  { id := bid, event_id := event.id, user_id := userId,
    total_tickets := total_tickets, total_amount := total_amount,
    customer_name := customer_name, customer_email := customer_email,
    status := .pending, confirmed_at := none, cancelled_at := none,
    payment_method := "", payment_reference := encodeLines lines }

/-- `TicketsService.create_booking`: serializer validation (listing must be
an event, at least one line, quantities ≥ 1), lock and fetch the referenced
ticket types, compare counts (duplicated or unknown ids both make the two
lengths differ), validate each line, create the PENDING booking, decrement
inventory, and store the serialized line mapping in `payment_reference`. -/
def create_booking (st : TicketState) (event : Listing)
    (lines : List (Nat × Nat)) (userId : Nat)
    (customer_name customer_email : String) :
    Except KError (EventBooking × TicketState) :=
  if event.type ≠ .event then .error .notAnEvent
  else if lines = [] then .error .linesMissing
  else if lines.any (fun p => p.2 = 0) then .error .invalidQuantity
  else if (st.ticket_types.filter (fun tt =>
      (lines.map (fun p => p.1)).contains tt.id)).length ≠
      (lines.map (fun p => p.1)).length then .error .linesNotFound
  else
    match validateLines event (st.ticket_types.filter (fun tt =>
        (lines.map (fun p => p.1)).contains tt.id)) lines with
    | .error e => .error e
    | .ok (total_tickets, total_amount) =>
      .ok (newEventBooking st.next_id event userId total_tickets total_amount
          customer_name customer_email lines,
        { st with
          ticket_types := reserveAll st.ticket_types lines,
          bookings := st.bookings ++
            [newEventBooking st.next_id event userId total_tickets
              total_amount customer_name customer_email lines],
          next_id := st.next_id + 1 })

/-- Line parser of `confirm_booking`: split the payload on ",", skip empty
parts, unpack each part on ":" (exactly two pieces or Python raises) and
convert the quantity with `int(...)`. -/
def parseLines : List PyStr → Option (List (PyStr × Nat))
  | [] => some []
  | part :: rest =>
    if part = [] then parseLines rest
    else
      match pySplit colonCh part with
      | [tid, qtyS] =>
        match charsToNat? qtyS with
        | some q =>
          match parseLines rest with
          | some l => some ((tid, q) :: l)
          | none => none
        | none => none
      | _ => none

/-- Ticket instances materialized for one line: `quantity` fresh tickets,
holder info copied from the booking's customer fields, status VALID. -/
def mkTickets (b : EventBooking) (tt : EventTicketType) (qty nid : Nat) :
    List EventTicket :=
  (List.range qty).map (fun k =>
    { id := nid + k, booking_id := b.id, ticket_type_id := tt.id,
      ticket_number := nid + k, qr_code := nid + k,
      holder_name := b.customer_name, holder_email := b.customer_email,
      status := .valid, used_at := none })

/-- Ticket creation loop of `confirm_booking`: for each parsed line fetch
the ticket type (`get_object_or_404`) and create `quantity` tickets. -/
def materializeAll (tts : List EventTicketType) (b : EventBooking) :
    List (PyStr × Nat) → Nat → Except KError (List EventTicket × Nat)
  | [], nid => .ok ([], nid)
  | (tid, qty) :: rest, nid =>
    match tts.find? (fun tt => natToChars tt.id = tid) with
    | none => .error .notFound
    | some tt =>
      match materializeAll tts b rest (nid + qty) with
      | .error e => .error e
      | .ok (ts, nid') => .ok (mkTickets b tt qty nid ++ ts, nid')

/-- The CONFIRMED row written by `confirm_booking`: status, `confirmed_at`,
and the payment fields (each kept when the argument is falsy, Python
`payment_method or booking.payment_method`). -/
def confirmedRow (b : EventBooking) (payment_method : String)
    (payment_reference : PyStr) (now : Int) : EventBooking :=
  { b with
    status := EventBookingStatus.confirmed,
    confirmed_at := some now,
    payment_method :=
      if payment_method ≠ "" then payment_method else b.payment_method,
    payment_reference :=
      if payment_reference ≠ [] then payment_reference
      else b.payment_reference }

/-- `TicketsService.confirm_booking`: fetch the booking (404 if missing),
return it unchanged if already CONFIRMED, fail if CANCELLED, parse the
stored lines from `payment_reference` (error if absent), create one ticket
per reserved unit, then persist the booking as CONFIRMED with
`save(update_fields=["status", "confirmed_at", "payment_method",
"payment_reference"])`. -/
def confirm_booking (st : TicketState) (bid : Nat) (payment_method : String)
    (payment_reference : PyStr) (now : Int) :
    Except KError (EventBooking × TicketState) :=
  match st.bookings.find? (fun bk => bk.id = bid) with
  | none => .error .notFound
  | some b =>
    if b.status = .confirmed then .ok (b, st)
    else if b.status = .cancelled then .error .cannotConfirmCancelled
    else if b.payment_reference = [] ∨ b.payment_reference.take 6 ≠ linesTag then
      .error .bookingLinesUnavailable
    else
      match parseLines (pySplit commaCh (b.payment_reference.drop 6)) with
      | none => .error .malformedLines
      | some plines =>
        match materializeAll st.ticket_types b plines st.next_id with
        | .error e => .error e
        | .ok (newTickets, nid') =>
          .ok (confirmedRow b payment_method payment_reference now,
            { st with
              bookings := st.bookings.map (fun x => if x.id = b.id then
                confirmedRow b payment_method payment_reference now else x),
              tickets := st.tickets ++ newTickets,
              next_id := nid' })

/-- Python dict insertion `counts[tid] = counts.get(tid, 0) + qty` on an
insertion-ordered association list. -/
def upsert (m : List (PyStr × Nat)) (k : PyStr) (v : Nat) :
    List (PyStr × Nat) :=
  if m.any (fun p => p.1 = k) then
    m.map (fun p => if p.1 = k then (p.1, p.2 + v) else p)
  else m ++ [(k, v)]

/-- Count parser of `cancel_booking`: like `parseLines` but aggregates
duplicate ids into a dict. -/
def parseCounts : List PyStr → List (PyStr × Nat) →
    Option (List (PyStr × Nat))
  | [], acc => some acc
  | part :: rest, acc =>
    if part = [] then parseCounts rest acc
    else
      match pySplit colonCh part with
      | [tid, qtyS] =>
        match charsToNat? qtyS with
        | some q => parseCounts rest (upsert acc tid q)
        | none => none
      | _ => none

/-- Release loop of `cancel_booking`: for each counted id fetch the ticket
type under lock (`.get(pk=tid)`, DoesNotExist propagates) and increment
`available_quantity` by the count — without any cap. -/
def releaseAll (tts : List EventTicketType) :
    List (PyStr × Nat) → Except KError (List EventTicketType)
  | [] => .ok tts
  | (tid, qty) :: rest =>
    match tts.find? (fun tt => natToChars tt.id = tid) with
    | none => .error .ticketTypeMissing
    | some _ =>
      releaseAll
        (tts.map (fun tt =>
          if natToChars tt.id = tid then
            { tt with available_quantity := tt.available_quantity + qty }
          else tt))
        rest

/-- The CANCELLED row written by `cancel_booking`. -/
def cancelledRow (b : EventBooking) (now : Int) : EventBooking :=
  { b with status := EventBookingStatus.cancelled, cancelled_at := some now }

/-- `TicketsService.cancel_booking`: fetch the booking, no-op if already
CANCELLED, recover the reserved counts (from `payment_reference` if it
carries the "LINES|" payload, otherwise by counting the booking's
materialized tickets), release the counts back to the ticket types, mark
the booking's tickets CANCELLED, and persist the booking as CANCELLED with
`save(update_fields=["status", "cancelled_at"])`. -/
def cancel_booking (st : TicketState) (bid : Nat) (now : Int) :
    Except KError (EventBooking × TicketState) :=
  match st.bookings.find? (fun bk => bk.id = bid) with
  | none => .error .notFound
  | some b =>
    if b.status = .cancelled then .ok (b, st)
    else
      match
        (if b.payment_reference = [] ∨ b.payment_reference.take 6 ≠ linesTag then
          some ((st.tickets.filter (fun t => t.booking_id = b.id)).foldl
            (fun acc t => upsert acc (natToChars t.ticket_type_id) 1) [])
        else parseCounts (pySplit commaCh (b.payment_reference.drop 6)) []) with
      | none => .error .malformedLines
      | some counts =>
        match releaseAll st.ticket_types counts with
        | .error e => .error e
        | .ok tts' =>
          .ok (cancelledRow b now, { st with
            ticket_types := tts',
            tickets := st.tickets.map (fun t =>
              if t.booking_id = b.id then
                { t with status := EventTicketStatus.cancelled }
              else t),
            bookings := st.bookings.map (fun x => if x.id = b.id then
              cancelledRow b now else x) })

/-- The USED row written by `use_ticket_by_qr`. -/
def usedRow (t : EventTicket) (now : Int) : EventTicket :=
  { t with status := EventTicketStatus.used, used_at := some now }

/-- `TicketsService.use_ticket_by_qr`: look the ticket up by qr code or
ticket number (404 if absent), reject if `can_be_used` is false (status not
VALID or booking not CONFIRMED), then the dead already-used check, then mark
USED with `used_at = now` and
`save(update_fields=["status", "used_at"])`. -/
def use_ticket_by_qr (st : TicketState) (code : Nat) (now : Int) :
    Except KError (EventTicket × TicketState) :=
  match st.tickets.find? (fun t => t.qr_code = code ∨ t.ticket_number = code) with
  | none => .error .notFound
  | some t =>
    match st.bookings.find? (fun bk => bk.id = t.booking_id) with
    | none => .error .notFound
    | some b =>
      if ¬(t.status = .valid ∧ b.status = .confirmed) then
        .error .ticketNotUsable
      else if t.status = .used then .error .ticketAlreadyUsed
      else
        .ok (usedRow t now, { st with
          tickets := st.tickets.map (fun x => if x.id = t.id then
            usedRow t now else x) })

/-- `EventTicketTypeCreateUpdateSerializer.update` restricted to a
`total_quantity` edit: after writing the new total it reclamps
`available_quantity` to `max(0, total_after - sold)` where
`sold = total_before - available_before`. -/
def update_ticket_type_total (st : TicketState) (ttid new_total : Nat) :
    Except KError TicketState :=
  match st.ticket_types.find? (fun tt => tt.id = ttid) with
  | none => .error .notFound
  | some tt =>
    let sold : Int := (tt.total_quantity : Int) - (tt.available_quantity : Int)
    let computed : Int := max 0 ((new_total : Int) - sold)
    .ok { st with ticket_types := st.ticket_types.map (fun x =>
      if x.id = ttid then
        { x with total_quantity := new_total,
                 available_quantity := computed.toNat }
      else x) }

/-- Stored ticket state after an operation returning a booking: unchanged
when an exception was raised (transaction rollback). -/
def commitTickets (st : TicketState)
    (r : Except KError (EventBooking × TicketState)) : TicketState :=
  match r with
  | .error _ => st
  | .ok (_, st') => st'

/-- Every code emitted by the decimal renderer is a digit code. -/
theorem natToCharsAux_digits (fuel : Nat) :
    ∀ n, n < fuel → ∀ c ∈ natToCharsAux fuel n, 48 ≤ c ∧ c ≤ 57 := by
  induction fuel with
  | zero => omega
  | succ fuel ih =>
    intro n hn c hc
    rw [natToCharsAux] at hc
    split at hc
    · rename_i h10
      simp only [List.mem_singleton] at hc
      subst hc
      unfold digitCh
      omega
    · rename_i h10
      rw [List.mem_append] at hc
      rcases hc with hc | hc
      · have hdiv : n / 10 < n := Nat.div_lt_self (by omega) (by omega)
        exact ih (n / 10) (by omega) c hc
      · simp only [List.mem_singleton] at hc
        subst hc
        unfold digitCh
        have := Nat.mod_lt n (show 0 < 10 by omega)
        omega

/-- The decimal rendering is never the empty string. -/
theorem natToCharsAux_ne_nil (fuel n : Nat) (h : n < fuel) :
    natToCharsAux fuel n ≠ [] := by
  cases fuel with
  | zero => omega
  | succ fuel =>
    rw [natToCharsAux]
    split
    · simp
    · simp

/-- Folding digits over an appended string. -/
theorem parseDigits_append (s t : PyStr) :
    ∀ acc, parseDigits acc (s ++ t) =
      match parseDigits acc s with
      | some m => parseDigits m t
      | none => none := by
  induction s with
  | nil => intro acc; rfl
  | cons c rest ih =>
    intro acc
    simp only [List.cons_append, parseDigits]
    split
    · exact ih _
    · rfl

/-- Parsing the decimal rendering recovers the number (with the incoming
accumulator shifted by the rendered width). -/
theorem parseDigits_natToCharsAux (fuel : Nat) :
    ∀ n, n < fuel → ∀ acc, parseDigits acc (natToCharsAux fuel n) =
      some (acc * 10 ^ (natToCharsAux fuel n).length + n) := by
  induction fuel with
  | zero => omega
  | succ fuel ih =>
    intro n hn acc
    rw [natToCharsAux]
    split
    · rename_i h10
      simp only [parseDigits, digitCh]
      rw [if_pos (by omega)]
      simp only [parseDigits, List.length_singleton]
      congr 1
      omega
    · rename_i h10
      have hdiv : n / 10 < n := Nat.div_lt_self (by omega) (by omega)
      rw [parseDigits_append]
      rw [ih (n / 10) (by omega) acc]
      simp only [parseDigits, digitCh]
      have hmod : n % 10 < 10 := Nat.mod_lt n (by omega)
      rw [if_pos (by omega)]
      simp only [parseDigits, List.length_append, List.length_singleton]
      congr 1
      have hdm := Nat.div_add_mod n 10
      rw [pow_succ]
      set L := (natToCharsAux fuel (n / 10)).length
      have : 48 + n % 10 - 48 = n % 10 := by omega
      rw [this]
      ring_nf
      omega

/-- Python `int` inverts the decimal rendering. -/
theorem charsToNat?_natToChars (n : Nat) : charsToNat? (natToChars n) = some n := by
  unfold natToChars
  cases hne : natToCharsAux (n + 1) n with
  | nil => exact absurd hne (natToCharsAux_ne_nil (n + 1) n (by omega))
  | cons c rest =>
    have hp := parseDigits_natToCharsAux (n + 1) n (by omega) 0
    rw [hne] at hp
    show parseDigits 0 (c :: rest) = some n
    rw [hp]
    simp

/-- Decimal renderings are injective. -/
theorem natToChars_inj {a b : Nat} (h : natToChars a = natToChars b) :
    a = b := by
  have ha := charsToNat?_natToChars a
  have hb := charsToNat?_natToChars b
  rw [h] at ha
  rw [ha] at hb
  exact Option.some.inj hb

/-- The ":" separator never occurs in a decimal rendering. -/
theorem colonCh_not_mem_natToChars (n : Nat) : colonCh ∉ natToChars n := by
  intro hmem
  have := natToCharsAux_digits (n + 1) n (by omega) colonCh hmem
  unfold colonCh at this
  omega

/-- The "," separator never occurs in a decimal rendering. -/
theorem commaCh_not_mem_natToChars (n : Nat) : commaCh ∉ natToChars n := by
  intro hmem
  have := natToCharsAux_digits (n + 1) n (by omega) commaCh hmem
  unfold commaCh at this
  omega

/-- Splitting a string that does not contain the separator. -/
theorem pySplit_not_mem (sep : Nat) (s : PyStr) (h : sep ∉ s) :
    pySplit sep s = [s] := by
  induction s with
  | nil => rfl
  | cons c rest ih =>
    have hc : ¬c = sep := fun hh => h (by simp [hh])
    have hr : sep ∉ rest := fun hh => h (List.mem_cons_of_mem _ hh)
    rw [pySplit]
    simp only [if_neg hc, ih hr]

/-- Splitting peels off a separator-free head part. -/
theorem pySplit_append (sep : Nat) (x rest : PyStr) (h : sep ∉ x) :
    pySplit sep (x ++ sep :: rest) = x :: pySplit sep rest := by
  induction x with
  | nil => simp [pySplit]
  | cons c xs ih =>
    have hc : ¬c = sep := fun hh => h (by simp [hh])
    have hx : sep ∉ xs := fun hh => h (List.mem_cons_of_mem _ hh)
    rw [List.cons_append, pySplit]
    rw [ih hx]
    simp only [if_neg hc]

/-- `split` inverts `join` when no part contains the separator. -/
theorem pySplit_pyJoin (sep : Nat) (parts : List PyStr)
    (h : ∀ p ∈ parts, sep ∉ p) (hne : parts ≠ []) :
    pySplit sep (pyJoin sep parts) = parts := by
  induction parts with
  | nil => exact absurd rfl hne
  | cons x xs ih =>
    cases xs with
    | nil => simpa [pyJoin] using pySplit_not_mem sep x (h x (by simp))
    | cons y ys =>
      have hjoin : pyJoin sep (x :: y :: ys) = x ++ sep :: pyJoin sep (y :: ys) := rfl
      rw [hjoin, pySplit_append sep x _ (h x (by simp))]
      rw [ih (fun p hp => h p (by simp [hp])) (by simp)]

/-- An encoded line is nonempty. -/
theorem encodeLine_ne_nil (tid qty : Nat) : encodeLine tid qty ≠ [] := by
  unfold encodeLine natToChars
  cases hne : natToCharsAux (tid + 1) tid with
  | nil => exact absurd hne (natToCharsAux_ne_nil (tid + 1) tid (by omega))
  | cons c rest => simp

/-- An encoded line contains no ",". -/
theorem commaCh_not_mem_encodeLine (tid qty : Nat) :
    commaCh ∉ encodeLine tid qty := by
  unfold encodeLine
  intro hmem
  rw [List.mem_append] at hmem
  rcases hmem with hmem | hmem
  · exact commaCh_not_mem_natToChars tid hmem
  · rw [List.mem_cons] at hmem
    rcases hmem with hmem | hmem
    · simp [commaCh, colonCh] at hmem
    · exact commaCh_not_mem_natToChars qty hmem

/-- Splitting an encoded line on ":" recovers the two rendered fields. -/
theorem pySplit_encodeLine (tid qty : Nat) :
    pySplit colonCh (encodeLine tid qty) = [natToChars tid, natToChars qty] := by
  unfold encodeLine
  rw [pySplit_append colonCh _ _ (colonCh_not_mem_natToChars tid)]
  rw [pySplit_not_mem colonCh _ (colonCh_not_mem_natToChars qty)]

/-- `parseLines` on the rendered parts recovers every line (with ids still
in rendered form). -/
theorem parseLines_encoded (lines : List (Nat × Nat)) :
    parseLines (lines.map (fun p => encodeLine p.1 p.2)) =
      some (lines.map (fun p => (natToChars p.1, p.2))) := by
  induction lines with
  | nil => rfl
  | cons p rest ih =>
    rw [List.map_cons, parseLines]
    rw [if_neg (by exact encodeLine_ne_nil p.1 p.2)]
    rw [pySplit_encodeLine]
    simp only [charsToNat?_natToChars, ih, List.map_cons]

/-- The stored payload round-trips: dropping the "LINES|" tag and splitting
on "," then parsing recovers the reserved lines. -/
theorem parse_encodeLines (lines : List (Nat × Nat)) (hne : lines ≠ []) :
    parseLines (pySplit commaCh ((encodeLines lines).drop 6)) =
      some (lines.map (fun p => (natToChars p.1, p.2))) := by
  unfold encodeLines
  rw [show (6 : Nat) = linesTag.length from rfl, List.drop_left]
  rw [pySplit_pyJoin commaCh _
    (by
      intro part hp
      rw [List.mem_map] at hp
      obtain ⟨q, _, rfl⟩ := hp
      exact commaCh_not_mem_encodeLine q.1 q.2)
    (by simpa using hne)]
  exact parseLines_encoded lines

/-- The stored payload carries the "LINES|" tag. -/
theorem encodeLines_take_tag (lines : List (Nat × Nat)) :
    (encodeLines lines).take 6 = linesTag := by
  unfold encodeLines
  rw [show (6 : Nat) = linesTag.length from rfl, List.take_left]

/-- The stored payload is nonempty. -/
theorem encodeLines_ne_nil (lines : List (Nat × Nat)) :
    encodeLines lines ≠ [] := by
  unfold encodeLines linesTag
  simp

/-- Row update by key: when `find?` located `t` and the replacement `t'`
keeps `t`'s key and satisfies the search predicate, searching again after
the keyed update finds `t'` (elements before `t` fail the predicate and, by
hypothesis, have different keys, so they are untouched). -/
theorem find?_map_update {α : Type} (l : List α) (p : α → Bool)
    (key : α → Nat) (t t' : α)
    (hf : l.find? p = some t) (ht' : p t' = true) (hkey : key t' = key t)
    (hprev : ∀ x ∈ l, p x = false → key x ≠ key t) :
    (l.map (fun x => if key x = key t then t' else x)).find? p = some t' := by
  induction l with
  | nil => simp at hf
  | cons x xs ih =>
    by_cases hx : p x = true
    · rw [List.find?_cons_of_pos _ hx] at hf
      have hxt : x = t := Option.some.inj hf
      subst hxt
      rw [List.map_cons, if_pos rfl, List.find?_cons_of_pos _ ht']
    · have hxf : p x = false := by simpa using hx
      rw [List.find?_cons_of_neg _ hx] at hf
      have hne : key x ≠ key t := hprev x (by simp) hxf
      rw [List.map_cons, if_neg hne, List.find?_cons_of_neg _ hx]
      exact ih hf (fun y hy hyf => hprev y (by simp [hy]) hyf)

/-- The number of tickets materialized by `confirm_booking` is the sum of
the parsed line quantities. -/
theorem materializeAll_length (tts : List EventTicketType) (b : EventBooking)
    (l : List (PyStr × Nat)) :
    ∀ nid ts nid', materializeAll tts b l nid = .ok (ts, nid') →
      ts.length = (l.map (fun p => p.2)).sum := by
  induction l with
  | nil =>
    intro nid ts nid' h
    simp only [materializeAll] at h
    obtain ⟨h1, _⟩ := Prod.mk.injEq .. ▸ Except.ok.inj h
    simp [← h1]
  | cons p rest ih =>
    intro nid ts nid' h
    simp only [materializeAll] at h
    split at h
    · exact absurd h (by simp)
    · split at h
      · exact absurd h (by simp)
      · rename_i ts0 heq
        obtain ⟨h1, _⟩ := Prod.mk.injEq .. ▸ Except.ok.inj h
        subst h1
        rename_i a tt hfind
        simp only [List.length_append, List.map_cons, List.sum_cons]
        rw [ih _ _ _ heq]
        simp [mkTickets]

/-- Every ticket materialized by `confirm_booking` belongs to the confirmed
booking, and is created VALID. -/
theorem materializeAll_fields (tts : List EventTicketType) (b : EventBooking)
    (l : List (PyStr × Nat)) :
    ∀ nid ts nid', materializeAll tts b l nid = .ok (ts, nid') →
      ∀ t ∈ ts, t.booking_id = b.id ∧ t.status = .valid := by
  induction l with
  | nil =>
    intro nid ts nid' h
    simp only [materializeAll] at h
    obtain ⟨h1, _⟩ := Prod.mk.injEq .. ▸ Except.ok.inj h
    simp [← h1]
  | cons p rest ih =>
    intro nid ts nid' h
    simp only [materializeAll] at h
    split at h
    · exact absurd h (by simp)
    · split at h
      · exact absurd h (by simp)
      · rename_i ts0 heq
        obtain ⟨h1, _⟩ := Prod.mk.injEq .. ▸ Except.ok.inj h
        subst h1
        intro t ht
        rw [List.mem_append] at ht
        rcases ht with ht | ht
        · unfold mkTickets at ht
          rw [List.mem_map] at ht
          obtain ⟨k, _, rfl⟩ := ht
          exact ⟨rfl, rfl⟩
        · exact ih _ _ _ heq t ht

/-- `materializeAll` succeeds whenever every parsed id resolves to an
existing ticket type. -/
theorem materializeAll_isOk (tts : List EventTicketType) (b : EventBooking)
    (l : List (PyStr × Nat))
    (hex : ∀ p ∈ l, ∃ tt ∈ tts, natToChars tt.id = p.1) :
    ∀ nid, ∃ ts nid', materializeAll tts b l nid = .ok (ts, nid') := by
  induction l with
  | nil => intro nid; exact ⟨[], nid, rfl⟩
  | cons p rest ih =>
    intro nid
    obtain ⟨tt, htt, hid⟩ := hex p (by simp)
    have hfind : (tts.find? (fun tt => natToChars tt.id = p.1)).isSome := by
      rw [List.find?_isSome]
      exact ⟨tt, htt, by simp [hid]⟩
    obtain ⟨tt0, hfind0⟩ := Option.isSome_iff_exists.mp hfind
    obtain ⟨ts, nid', hrest⟩ :=
      ih (fun q hq => hex q (by simp [hq])) (nid + p.2)
    refine ⟨mkTickets b tt0 p.2 nid ++ ts, nid', ?_⟩
    simp only [materializeAll]
    rw [hfind0, hrest]

/-- `validateLines` accumulates `total_tickets` as the sum of the line
quantities. -/
theorem validateLines_total (event : Listing) (tts : List EventTicketType)
    (l : List (Nat × Nat)) :
    ∀ t a, validateLines event tts l = .ok (t, a) →
      t = (l.map (fun p => p.2)).sum := by
  induction l with
  | nil =>
    intro t a h
    obtain ⟨h1, _⟩ := Prod.mk.injEq .. ▸ Except.ok.inj h
    simp [← h1]
  | cons p rest ih =>
    intro t a h
    simp only [validateLines] at h
    split at h
    · exact absurd h (by simp)
    · split_ifs at h
      split at h
      · exact absurd h (by simp)
      · rename_i res heq
        obtain ⟨h1, _⟩ := Prod.mk.injEq .. ▸ Except.ok.inj h
        subst h1
        simp only [List.map_cons, List.sum_cons]
        rw [ih _ _ heq]

/-- On success, every line's ticket type id resolves in the locked list. -/
theorem validateLines_mem (event : Listing) (tts : List EventTicketType)
    (l : List (Nat × Nat)) :
    ∀ r, validateLines event tts l = .ok r →
      ∀ p ∈ l, ∃ tt ∈ tts, tt.id = p.1 := by
  induction l with
  | nil => intro r _ p hp; simp at hp
  | cons q rest ih =>
    intro r h p hp
    simp only [validateLines] at h
    split at h
    · exact absurd h (by simp)
    · rename_i tt hfind
      split_ifs at h
      split at h
      · exact absurd h (by simp)
      · rename_i t0 a0 heq
        rw [List.mem_cons] at hp
        rcases hp with hp | hp
        · subst hp
          refine ⟨tt, List.mem_of_find?_eq_some hfind, ?_⟩
          have := List.find?_some hfind
          simpa using this
        · exact ih (t0, a0) heq p hp

/-- Reserving inventory only rewrites quantities: the id sequence of the
ticket-type table is unchanged. -/
theorem reserveAll_map_id (l : List (Nat × Nat)) :
    ∀ tts : List EventTicketType,
      (reserveAll tts l).map (fun tt => tt.id) = tts.map (fun tt => tt.id) := by
  induction l with
  | nil => intro tts; rfl
  | cons p rest ih =>
    intro tts
    rw [reserveAll, ih, List.map_map]
    apply List.map_congr_left
    intro tt _
    by_cases h : tt.id = p.1 <;> simp [h]

/-- Counting argument behind the duplicate-line rejection: with unique
ticket-type ids in the table, the rows matching a list of requested ids are
never more numerous than the distinct requested ids, so a duplicated id
makes `len(tts) != len(tt_ids)` true. -/
theorem filter_length_lt_of_dup (tts : List EventTicketType) (ids : List Nat)
    (hnd : (tts.map (fun tt => tt.id)).Nodup) (hdup : ¬ids.Nodup) :
    (tts.filter (fun tt => ids.contains tt.id)).length < ids.length := by
  set l := (tts.filter (fun tt => ids.contains tt.id)).map (fun tt => tt.id)
    with hl
  have hsub : l.Sublist (tts.map fun tt => tt.id) :=
    (List.filter_sublist _).map _
  have hlnd : l.Nodup := hnd.sublist hsub
  have hmem : ∀ x ∈ l, x ∈ ids := by
    intro x hx
    rw [hl, List.mem_map] at hx
    obtain ⟨tt, htt, rfl⟩ := hx
    have hc := List.of_mem_filter htt
    exact List.elem_iff.mp hc
  have h2 : l.toFinset ⊆ ids.toFinset := by
    intro x hx
    rw [List.mem_toFinset] at hx ⊢
    exact hmem x hx
  have h3 : ids.toFinset.card < ids.length := by
    rcases lt_or_eq_of_le (List.toFinset_card_le ids) with h | h
    · exact h
    · exfalso
      apply hdup
      have := Multiset.toFinset_card_eq_card_iff_nodup.mp
        (by simpa using h)
      simpa using this
  have h4 : l.length ≤ ids.toFinset.card := by
    rw [← List.toFinset_card_of_nodup hlnd]
    exact Finset.card_le_card h2
  have h5 : (tts.filter (fun tt => ids.contains tt.id)).length = l.length := by
    rw [hl, List.length_map]
  omega

/-- C10: a lines list mentioning the same ticket_type id twice always fails
`create_booking` with the "ticket types not found" validation error — the
locked distinct rows can never match the duplicated id list in length — and
nothing is persisted. -/
theorem c10_duplicate_lines_rejected (st : TicketState) (event : Listing)
    (lines : List (Nat × Nat)) (userId : Nat) (cn ce : String)
    (hev : event.type = .event)
    (hqty : ∀ p ∈ lines, p.2 ≠ 0)
    (hnd : (st.ticket_types.map (fun tt => tt.id)).Nodup)
    (hdup : ¬(lines.map (fun p => p.1)).Nodup) :
    create_booking st event lines userId cn ce = .error .linesNotFound ∧
    commitTickets st (create_booking st event lines userId cn ce) = st := by
  have hne : lines ≠ [] := by
    rintro rfl
    exact hdup (by simp)
  have hlen := filter_length_lt_of_dup st.ticket_types
    (lines.map (fun p => p.1)) hnd hdup
  have hmain : create_booking st event lines userId cn ce =
      .error .linesNotFound := by
    unfold create_booking
    rw [if_neg (by simp [hev])]
    rw [if_neg hne]
    rw [if_neg (by
      simp only [List.any_eq_true, not_exists]
      intro p hmem
      exact absurd (by simpa using hmem.2) (hqty p hmem.1))]
    rw [if_pos (by omega)]
  exact ⟨hmain, by rw [hmain]; rfl⟩

/-- Event listing fixture. -/
def listingEv : Listing :=
  { id := 2, owner := 1, type := .event, price_per_night := 0 }

/-- Ticket type fixture: 5 of 5 available, limit 3 per user, active. -/
def ttA : EventTicketType :=
  { id := 1, event_id := 2, name := "General", price := 50,
    total_quantity := 5, available_quantity := 5, max_per_user := 3,
    is_active := true }

/-- Initial ticket state: one ticket type, no bookings, no tickets. -/
def stA : TicketState :=
  { ticket_types := [ttA], bookings := [], tickets := [], next_id := 100 }

/-- C10 witness: two lines naming ticket type 1, each quantity 1 (combined
quantity within stock and per-user limit), are rejected and the state is
unchanged. -/
theorem c10_witness :
    create_booking stA listingEv [(1, 1), (1, 1)] 7 "n" "e" =
      .error .linesNotFound ∧
    commitTickets stA (create_booking stA listingEv [(1, 1), (1, 1)] 7 "n" "e") =
      stA :=
  c10_duplicate_lines_rejected stA listingEv [(1, 1), (1, 1)] 7 "n" "e"
    rfl (by decide) (by decide) (by decide)


/-- C4: confirming a PENDING booking produced by `create_booking` sets
status CONFIRMED and materializes exactly `total_tickets` ticket instances
(one per reserved unit, all attached to the booking); a second
`confirm_booking` returns the booking unchanged and creates nothing; and
`confirm_booking` on a CANCELLED booking fails. -/
theorem c4_confirm_booking (st st1 : TicketState) (event : Listing)
    (lines : List (Nat × Nat)) (userId : Nat) (cn ce : String)
    (b : EventBooking) (pm pm2 : String) (pr pr2 : PyStr) (now now2 : Int)
    (hc : create_booking st event lines userId cn ce = .ok (b, st1))
    (hbfresh : ∀ bk ∈ st.bookings, bk.id ≠ st.next_id)
    (htfresh : ∀ t ∈ st.tickets, t.booking_id ≠ st.next_id) :
    (∃ b' st2, confirm_booking st1 b.id pm pr now = .ok (b', st2) ∧
      b'.status = .confirmed ∧
      st2.tickets.length = st1.tickets.length + b.total_tickets ∧
      (st2.tickets.filter (fun t => t.booking_id = b.id)).length =
        b.total_tickets ∧
      confirm_booking st2 b.id pm2 pr2 now2 = .ok (b', st2)) ∧
    (∀ st' bid bc, st'.bookings.find? (fun bk => bk.id = bid) = some bc →
      bc.status = .cancelled →
      confirm_booking st' bid pm pr now = .error .cannotConfirmCancelled) := by
  constructor
  case right =>
    intro st' bid bc hfind hcanc
    unfold confirm_booking
    rw [hfind]
    simp [hcanc]
  case left =>
    unfold create_booking at hc
    split_ifs at hc with h1 h2 h3 h4
    split at hc
    · exact absurd hc (by simp)
    rename_i t a hval
    obtain ⟨hb, hst1⟩ := Prod.mk.injEq .. ▸ Except.ok.inj hc
    have hbid : b.id = st.next_id := by rw [← hb]; rfl
    have hbst : b.status = .pending := by rw [← hb]; rfl
    have hbpr : b.payment_reference = encodeLines lines := by rw [← hb]; rfl
    have hbtot : b.total_tickets = t := by rw [← hb]; rfl
    have hs_bk : st1.bookings = st.bookings ++ [b] := by rw [← hst1, hb]
    have hs_tt : st1.ticket_types = reserveAll st.ticket_types lines := by
      rw [← hst1]
    have hs_tk : st1.tickets = st.tickets := by rw [← hst1]
    have htot : t = (lines.map (fun p => p.2)).sum :=
      validateLines_total event _ lines t a hval
    have hmem1 : ∀ p ∈ lines, ∃ tt ∈ st.ticket_types, tt.id = p.1 := by
      intro p hp
      obtain ⟨tt, htt, hid⟩ := validateLines_mem event _ lines (t, a) hval p hp
      exact ⟨tt, List.mem_of_mem_filter htt, hid⟩
    have hmem2 : ∀ p ∈ lines, ∃ tt ∈ st1.ticket_types, tt.id = p.1 := by
      intro p hp
      obtain ⟨tt, htt, hid⟩ := hmem1 p hp
      have hmm : p.1 ∈ (reserveAll st.ticket_types lines).map
          (fun tt => tt.id) := by
        rw [reserveAll_map_id, List.mem_map]
        exact ⟨tt, htt, hid⟩
      rw [List.mem_map] at hmm
      obtain ⟨tt', htt', hid'⟩ := hmm
      exact ⟨tt', by rw [hs_tt]; exact htt', hid'⟩
    have hmemR : ∀ q ∈ lines.map (fun p => (natToChars p.1, p.2)),
        ∃ tt ∈ st1.ticket_types, natToChars tt.id = q.1 := by
      intro q hq
      rw [List.mem_map] at hq
      obtain ⟨p, hp, rfl⟩ := hq
      obtain ⟨tt, htt, hid⟩ := hmem2 p hp
      exact ⟨tt, htt, by rw [hid]⟩
    obtain ⟨ts, nid', hmat⟩ := materializeAll_isOk st1.ticket_types b
      (lines.map (fun p => (natToChars p.1, p.2))) hmemR st1.next_id
    have hnone : st.bookings.find? (fun bk => bk.id = b.id) = none := by
      rw [List.find?_eq_none]
      intro bk hbk
      simp only [decide_eq_true_eq]
      rw [hbid]
      exact hbfresh bk hbk
    have hfind1 : st1.bookings.find? (fun bk => bk.id = b.id) = some b := by
      rw [hs_bk, List.find?_append, hnone]
      simp
    have hprefneg : ¬(b.payment_reference = [] ∨
        b.payment_reference.take 6 ≠ linesTag) := by
      rw [hbpr]
      push_neg
      exact ⟨encodeLines_ne_nil lines, encodeLines_take_tag lines⟩
    have hparse : parseLines (pySplit commaCh (b.payment_reference.drop 6)) =
        some (lines.map (fun p => (natToChars p.1, p.2))) := by
      rw [hbpr]
      exact parse_encodeLines lines h2
    have hconf : confirm_booking st1 b.id pm pr now =
        .ok (confirmedRow b pm pr now,
          ⟨st1.ticket_types,
            st1.bookings.map (fun x => if x.id = b.id then
              confirmedRow b pm pr now else x),
            st1.tickets ++ ts, nid'⟩) := by
      unfold confirm_booking
      simp only [hfind1]
      rw [if_neg (by rw [hbst]; simp)]
      rw [if_neg (by rw [hbst]; simp)]
      rw [if_neg hprefneg]
      simp only [hparse, hmat]
    refine ⟨confirmedRow b pm pr now,
      ⟨st1.ticket_types,
        st1.bookings.map (fun x => if x.id = b.id then
          confirmedRow b pm pr now else x),
        st1.tickets ++ ts, nid'⟩, hconf, rfl, ?_, ?_, ?_⟩
    · have hlen := materializeAll_length st1.ticket_types b _ _ _ _ hmat
      simp only [List.length_append]
      rw [hlen, hbtot, htot, List.map_map]
      rfl
    · have hlen := materializeAll_length st1.ticket_types b _ _ _ _ hmat
      have hfields := materializeAll_fields st1.ticket_types b _ _ _ _ hmat
      show ((st1.tickets ++ ts).filter (fun t => t.booking_id = b.id)).length =
        b.total_tickets
      rw [List.filter_append]
      have hold : st1.tickets.filter (fun t => t.booking_id = b.id) = [] := by
        rw [List.filter_eq_nil_iff]
        intro t ht
        rw [hs_tk] at ht
        simp only [decide_eq_true_eq]
        rw [hbid]
        exact htfresh t ht
      have hnew : ts.filter (fun t => t.booking_id = b.id) = ts := by
        rw [List.filter_eq_self]
        intro t ht
        simp only [decide_eq_true_eq]
        exact (hfields t ht).1
      rw [hold, hnew, List.nil_append, hlen, hbtot, htot, List.map_map]
      rfl
    · have hupd : st.bookings.map (fun x => if x.id = b.id then
          confirmedRow b pm pr now else x) = st.bookings := by
        have hcg := List.map_congr_left (l := st.bookings)
          (f := fun x => if x.id = b.id then confirmedRow b pm pr now else x)
          (g := fun x => x)
          (by
            intro x hx
            show (if x.id = b.id then confirmedRow b pm pr now else x) = x
            rw [if_neg]
            rw [hbid]
            exact hbfresh x hx)
        rw [hcg, List.map_id']
      have hfind2 : (st1.bookings.map (fun x => if x.id = b.id then
          confirmedRow b pm pr now else x)).find? (fun bk => bk.id = b.id) =
          some (confirmedRow b pm pr now) := by
        rw [hs_bk, List.map_append, hupd]
        rw [List.find?_append, hnone]
        simp [confirmedRow]
      unfold confirm_booking
      simp only [hfind2]
      rw [if_pos (show (confirmedRow b pm pr now).status =
        EventBookingStatus.confirmed from rfl)]

/-- The booking created by the C4 witness run: 2 tickets of type 1 at price
50 (totals 2 and 100), id 100 drawn from `stA`. -/
def bEx : EventBooking := newEventBooking 100 listingEv 7 2 100 "n" "e" [(1, 2)]

/-- State after the witness `create_booking` call. -/
def st1Ex : TicketState :=
  ⟨reserveAll stA.ticket_types [(1, 2)], stA.bookings ++ [bEx],
    stA.tickets, 101⟩

/-- C4 witness: creating a 2-ticket booking from `stA` and confirming it
materializes exactly 2 tickets, confirming again is a no-op, and the
cancelled-confirm clause is instantiated by the same theorem. -/
theorem c4_witness :
    ∃ b' st2, confirm_booking st1Ex bEx.id "card" [] 50 = .ok (b', st2) ∧
      b'.status = .confirmed ∧
      st2.tickets.length = st1Ex.tickets.length + bEx.total_tickets ∧
      (st2.tickets.filter (fun t => t.booking_id = bEx.id)).length =
        bEx.total_tickets ∧
      confirm_booking st2 bEx.id "x" [] 60 = .ok (b', st2) :=
  (c4_confirm_booking stA st1Ex listingEv [(1, 2)] 7 "n" "e" bEx "card" "x"
    [] [] 50 60 rfl (by intro bk hbk; simp [stA] at hbk)
    (by intro t ht; simp [stA] at ht)).1

/-- Total quantity recorded for one key in a counts dict (or for one id in
a raw pair list). -/
def countsFor (k : PyStr) (m : List (PyStr × Nat)) : Nat :=
  ((m.filter (fun p => p.1 = k)).map (fun p => p.2)).sum

/-- Unfolding `countsFor` over a cons cell. -/
theorem countsFor_cons (k : PyStr) (p : PyStr × Nat) (m : List (PyStr × Nat)) :
    countsFor k (p :: m) = (if p.1 = k then p.2 else 0) + countsFor k m := by
  unfold countsFor
  by_cases h : p.1 = k <;> simp [h]

/-- Upserting under a fresh head key commutes with the cons cell. -/
theorem upsert_cons_ne (q : PyStr × Nat) (m : List (PyStr × Nat))
    (k : PyStr) (v : Nat) (hq : ¬q.1 = k) :
    upsert (q :: m) k v = q :: upsert m k v := by
  unfold upsert
  rw [List.any_cons]
  by_cases hm : m.any (fun p => p.1 = k) = true <;>
    simp [hm, hq]

/-- Keys of an upsert result come from the dict or are the inserted key. -/
theorem upsert_keys (m : List (PyStr × Nat)) (k : PyStr) (v : Nat) :
    ∀ p ∈ upsert m k v, p.1 = k ∨ p.1 ∈ m.map (fun q => q.1) := by
  intro p hp
  unfold upsert at hp
  split at hp
  · rw [List.mem_map] at hp
    obtain ⟨q, hq, hpq⟩ := hp
    right
    rw [List.mem_map]
    refine ⟨q, hq, ?_⟩
    rw [← hpq]
    by_cases hqk : q.1 = k <;> simp [hqk]
  · rw [List.mem_append] at hp
    rcases hp with hp | hp
    · right
      rw [List.mem_map]
      exact ⟨p, hp, rfl⟩
    · left
      rw [List.mem_singleton] at hp
      rw [hp]

/-- Upserting keeps the dict keys distinct. -/
theorem upsert_keys_nodup (m : List (PyStr × Nat)) (k : PyStr) (v : Nat)
    (hnd : (m.map (fun p => p.1)).Nodup) :
    ((upsert m k v).map (fun p => p.1)).Nodup := by
  unfold upsert
  split
  · have hkeys : (m.map (fun p => if p.1 = k then (p.1, p.2 + v) else p)).map
        (fun p => p.1) = m.map (fun p => p.1) := by
      rw [List.map_map]
      apply List.map_congr_left
      intro q _
      by_cases hqk : q.1 = k <;> simp [hqk]
    rw [hkeys]
    exact hnd
  · rename_i habs
    rw [List.map_append]
    rw [List.nodup_append]
    refine ⟨hnd, List.nodup_singleton _, ?_⟩
    intro x hx hx2
    simp only [List.map_cons, List.map_nil, List.mem_singleton] at hx2
    rw [List.mem_map] at hx
    obtain ⟨q, hq, hpq⟩ := hx
    apply habs
    rw [List.any_eq_true]
    refine ⟨q, hq, ?_⟩
    simp [hpq, hx2]

/-- Effect of one upsert on a key's total, given distinct dict keys. -/
theorem countsFor_upsert (k kI : PyStr) (v : Nat) :
    ∀ m : List (PyStr × Nat), (m.map (fun p => p.1)).Nodup →
      countsFor k (upsert m kI v) =
        countsFor k m + (if kI = k then v else 0) := by
  intro m
  induction m with
  | nil =>
    intro _
    unfold upsert countsFor
    by_cases h : kI = k <;> simp [h]
  | cons q m' ih =>
    intro hnd
    rw [List.map_cons, List.nodup_cons] at hnd
    by_cases hq : q.1 = kI
    · have hmap : upsert (q :: m') kI v = (q.1, q.2 + v) :: m' := by
        unfold upsert
        rw [if_pos (by rw [List.any_cons]; simp [hq])]
        rw [List.map_cons, if_pos hq]
        congr 1
        have : ∀ r ∈ m', ¬r.1 = kI := by
          intro r hr hrk
          exact hnd.1 (by rw [← hq] at hrk; rw [← hrk, List.mem_map]; exact ⟨r, hr, rfl⟩)
        rw [List.map_congr_left (g := fun p => p) (fun r hr => by
          rw [if_neg (this r hr)])]
        exact List.map_id' m'
      rw [hmap, countsFor_cons, countsFor_cons]
      by_cases hk : q.1 = k
      · rw [if_pos hk, if_pos hk, if_pos (by rw [← hq, hk])]
        omega
      · rw [if_neg hk, if_neg hk, if_neg (by rw [← hq]; exact hk)]
        omega
    · rw [upsert_cons_ne q m' kI v hq]
      rw [countsFor_cons, countsFor_cons, ih hnd.2]
      omega

/-- Folding upserts over rendered lines accumulates, per key, the sum of the
matching quantities. -/
theorem countsFor_fold (k : PyStr) (l : List (Nat × Nat)) :
    ∀ acc, (acc.map (fun p => p.1)).Nodup →
      countsFor k (l.foldl (fun m p => upsert m (natToChars p.1) p.2) acc) =
        countsFor k acc +
          ((l.filter (fun p => natToChars p.1 = k)).map (fun p => p.2)).sum := by
  induction l with
  | nil => intro acc _; simp
  | cons p l' ih =>
    intro acc hnd
    rw [List.foldl_cons]
    rw [ih (upsert acc (natToChars p.1) p.2)
      (upsert_keys_nodup acc (natToChars p.1) p.2 hnd)]
    rw [countsFor_upsert k (natToChars p.1) p.2 acc hnd]
    by_cases hk : natToChars p.1 = k
    · rw [if_pos hk]
      rw [List.filter_cons_of_pos (by simp [hk])]
      rw [List.map_cons, List.sum_cons]
      omega
    · rw [if_neg hk]
      rw [List.filter_cons_of_neg (by simp [hk])]
      omega

/-- All keys reached by folding upserts over rendered lines. -/
theorem fold_upsert_keys (l : List (Nat × Nat)) :
    ∀ acc, ∀ p ∈ l.foldl (fun m p => upsert m (natToChars p.1) p.2) acc,
      p.1 ∈ acc.map (fun q => q.1) ∨ ∃ q ∈ l, natToChars q.1 = p.1 := by
  induction l with
  | nil => intro acc p hp; left; rw [List.mem_map]; exact ⟨p, hp, rfl⟩
  | cons q l' ih =>
    intro acc p hp
    rw [List.foldl_cons] at hp
    rcases ih (upsert acc (natToChars q.1) q.2) p hp with hin | ⟨r, hr, hrk⟩
    · rw [List.mem_map] at hin
      obtain ⟨s, hs, hsk⟩ := hin
      rcases upsert_keys acc (natToChars q.1) q.2 s hs with hk | hk
      · right
        exact ⟨q, by simp, by rw [← hsk, hk]⟩
      · left
        rw [← hsk]
        exact hk
    · right
      exact ⟨r, by simp [hr], hrk⟩

/-- `parseCounts` on the rendered parts builds the upsert fold. -/
theorem parseCounts_encoded (l : List (Nat × Nat)) :
    ∀ acc, parseCounts (l.map (fun p => encodeLine p.1 p.2)) acc =
      some (l.foldl (fun m p => upsert m (natToChars p.1) p.2) acc) := by
  induction l with
  | nil => intro acc; rfl
  | cons p rest ih =>
    intro acc
    rw [List.map_cons, parseCounts]
    rw [if_neg (by exact encodeLine_ne_nil p.1 p.2)]
    rw [pySplit_encodeLine]
    simp only [charsToNat?_natToChars, ih, List.foldl_cons]

/-- The release loop, characterized row-wise: when every counted key
resolves, it increments each row's `available_quantity` by the total count
recorded for that row's id — with no cap. -/
theorem releaseAll_eq (counts : List (PyStr × Nat)) :
    ∀ tts : List EventTicketType,
      (∀ p ∈ counts, ∃ tt ∈ tts, natToChars tt.id = p.1) →
      releaseAll tts counts = .ok (tts.map (fun tt =>
        { tt with available_quantity :=
            tt.available_quantity + countsFor (natToChars tt.id) counts })) := by
  induction counts with
  | nil =>
    intro tts _
    unfold releaseAll
    have hmap := List.map_congr_left (l := tts)
      (f := fun tt => ({ tt with available_quantity :=
        tt.available_quantity + countsFor (natToChars tt.id) [] } :
        EventTicketType))
      (g := fun tt => tt) (fun tt _ => rfl)
    rw [hmap, List.map_id']
  | cons c rest ih =>
    intro tts hex
    obtain ⟨tt0, htt0, hid0⟩ := hex c (by simp)
    have hfind : (tts.find? (fun tt => natToChars tt.id = c.1)).isSome := by
      rw [List.find?_isSome]
      exact ⟨tt0, htt0, by simp [hid0]⟩
    obtain ⟨ttf, hfindf⟩ := Option.isSome_iff_exists.mp hfind
    obtain ⟨c1, c2⟩ := c
    unfold releaseAll
    simp only [hfindf]
    have hexR : ∀ p ∈ rest, ∃ tt ∈ tts.map (fun tt =>
        if natToChars tt.id = c1 then
          { tt with available_quantity := tt.available_quantity + c2 }
        else tt), natToChars tt.id = p.1 := by
      intro p hp
      obtain ⟨tt, htt, hid⟩ := hex p (by simp [hp])
      by_cases hc : natToChars tt.id = c1
      · refine ⟨{ tt with available_quantity := tt.available_quantity + c2 },
          ?_, hid⟩
        rw [List.mem_map]
        exact ⟨tt, htt, by rw [if_pos hc]⟩
      · refine ⟨tt, ?_, hid⟩
        rw [List.mem_map]
        exact ⟨tt, htt, by rw [if_neg hc]⟩
    rw [ih _ hexR]
    rw [List.map_map]
    congr 1
    apply List.map_congr_left
    intro tt _
    by_cases hc : natToChars tt.id = c1
    · simp [Function.comp, hc, countsFor_cons] <;> omega
    · have hc' : ¬c1 = natToChars tt.id := fun e => hc e.symm
      simp [Function.comp, hc, hc', countsFor_cons] <;> omega

/-- The stored payload, split and aggregated by `cancel_booking`, yields the
upsert fold over the reserved lines. -/
theorem parseCounts_encodeLines (l : List (Nat × Nat)) (hne : l ≠ []) :
    parseCounts (pySplit commaCh ((encodeLines l).drop 6)) [] =
      some (l.foldl (fun m p => upsert m (natToChars p.1) p.2) []) := by
  unfold encodeLines
  rw [show (6 : Nat) = linesTag.length from rfl, List.drop_left]
  rw [pySplit_pyJoin commaCh _
    (by
      intro part hp
      rw [List.mem_map] at hp
      obtain ⟨q, _, rfl⟩ := hp
      exact commaCh_not_mem_encodeLine q.1 q.2)
    (by simpa using hne)]
  exact parseCounts_encoded l []

/-- Per-key total of the ticket-reconstruction fold used by
`cancel_booking` when the stored line mapping is unavailable: each counted
key accumulates one unit per materialized ticket of that type. -/
theorem countsFor_ticketFold (k : PyStr) (tks : List EventTicket) :
    ∀ acc, (acc.map (fun p => p.1)).Nodup →
      countsFor k (tks.foldl
          (fun acc t => upsert acc (natToChars t.ticket_type_id) 1) acc) =
        countsFor k acc +
          (tks.filter (fun t => natToChars t.ticket_type_id = k)).length := by
  induction tks with
  | nil => intro acc _; simp
  | cons t tks' ih =>
    intro acc hnd
    rw [List.foldl_cons]
    rw [ih (upsert acc (natToChars t.ticket_type_id) 1)
      (upsert_keys_nodup acc (natToChars t.ticket_type_id) 1 hnd)]
    rw [countsFor_upsert k (natToChars t.ticket_type_id) 1 acc hnd]
    by_cases hk : natToChars t.ticket_type_id = k
    · rw [if_pos hk]
      rw [List.filter_cons_of_pos (by simp [hk])]
      rw [List.length_cons]
      omega
    · rw [if_neg hk]
      rw [List.filter_cons_of_neg (by simp [hk])]
      omega

/-- Keys reached by the ticket-reconstruction fold. -/
theorem ticketFold_keys (tks : List EventTicket) :
    ∀ acc, ∀ p ∈ tks.foldl
        (fun acc t => upsert acc (natToChars t.ticket_type_id) 1) acc,
      p.1 ∈ acc.map (fun q => q.1) ∨
        ∃ t ∈ tks, natToChars t.ticket_type_id = p.1 := by
  induction tks with
  | nil => intro acc p hp; left; rw [List.mem_map]; exact ⟨p, hp, rfl⟩
  | cons t tks' ih =>
    intro acc p hp
    rw [List.foldl_cons] at hp
    rcases ih (upsert acc (natToChars t.ticket_type_id) 1) p hp with
      hin | ⟨r, hr, hrk⟩
    · rw [List.mem_map] at hin
      obtain ⟨s, hs, hsk⟩ := hin
      rcases upsert_keys acc (natToChars t.ticket_type_id) 1 s hs with hk | hk
      · right
        exact ⟨t, by simp, by rw [← hsk, hk]⟩
      · left
        rw [← hsk]
        exact hk
    · right
      exact ⟨r, by simp [hr], hrk⟩

/-- C5 (amended): cancelling a PENDING or CONFIRMED booking sets status
CANCELLED, increments every referenced ticket type's `available_quantity` by
the reserved quantity taken from the stored line mapping — or, when the
stored mapping is unavailable, by the count reconstructed from the booking's
materialized tickets — without any cap, so it may exceed `total_quantity`;
it marks the booking's materialized tickets CANCELLED, and a second
`cancel_booking` is a no-op returning the same row and state.  The first
conjunct is the stored-mapping path, the second the reconstruction path. -/
theorem c5_cancel_booking (st : TicketState) (bid : Nat) (b : EventBooking)
    (now now2 : Int)
    (hfind : st.bookings.find? (fun bk => bk.id = bid) = some b)
    (hstatus : b.status = .pending ∨ b.status = .confirmed) :
    (∀ l : List (Nat × Nat), b.payment_reference = encodeLines l → l ≠ [] →
      (∀ p ∈ l, ∃ tt ∈ st.ticket_types, tt.id = p.1) →
      ∃ st', cancel_booking st bid now = .ok (cancelledRow b now, st') ∧
        (cancelledRow b now).status = .cancelled ∧
        (cancelledRow b now).cancelled_at = some now ∧
        st'.ticket_types = st.ticket_types.map (fun tt =>
          { tt with available_quantity := tt.available_quantity +
            ((l.filter (fun p => p.1 = tt.id)).map (fun p => p.2)).sum }) ∧
        (∀ t ∈ st'.tickets, t.booking_id = b.id → t.status = .cancelled) ∧
        cancel_booking st' bid now2 = .ok (cancelledRow b now, st')) ∧
    ((b.payment_reference = [] ∨ b.payment_reference.take 6 ≠ linesTag) →
      (∀ t ∈ st.tickets, t.booking_id = b.id →
        ∃ tt ∈ st.ticket_types, tt.id = t.ticket_type_id) →
      ∃ st', cancel_booking st bid now = .ok (cancelledRow b now, st') ∧
        (cancelledRow b now).status = .cancelled ∧
        (cancelledRow b now).cancelled_at = some now ∧
        st'.ticket_types = st.ticket_types.map (fun tt =>
          { tt with available_quantity := tt.available_quantity +
            ((st.tickets.filter (fun t => t.booking_id = b.id)).filter
              (fun t => t.ticket_type_id = tt.id)).length }) ∧
        (∀ t ∈ st'.tickets, t.booking_id = b.id → t.status = .cancelled) ∧
        cancel_booking st' bid now2 = .ok (cancelledRow b now, st')) := by
  have hbid : b.id = bid := by
    have := List.find?_some hfind
    simpa using this
  have hncanc : ¬b.status = .cancelled := by
    rcases hstatus with h | h <;> rw [h] <;> simp
  have hticketsCancelled : ∀ t ∈ st.tickets.map (fun t =>
      if t.booking_id = b.id then
        { t with status := EventTicketStatus.cancelled } else t),
      t.booking_id = b.id → t.status = .cancelled := by
    intro t ht hbk
    rw [List.mem_map] at ht
    obtain ⟨x, hx, hxt⟩ := ht
    by_cases hxb : x.booking_id = b.id
    · rw [← hxt, if_pos hxb]
    · rw [← hxt, if_neg hxb] at hbk ⊢
      exact absurd hbk hxb
  have hsecond : ∀ stx : TicketState,
      stx.bookings = st.bookings.map (fun x => if x.id = b.id then
        cancelledRow b now else x) →
      cancel_booking stx bid now2 = .ok (cancelledRow b now, stx) := by
    intro stx hbkx
    have hfind2 : (st.bookings.map (fun x => if x.id = b.id then
        cancelledRow b now else x)).find? (fun bk => bk.id = bid) =
        some (cancelledRow b now) := by
      have hprev : ∀ x ∈ st.bookings,
          (decide (x.id = bid)) = false → x.id ≠ b.id := by
        intro x _ hx hxe
        rw [hbid] at hxe
        simp [hxe] at hx
      have := find?_map_update st.bookings
        (fun bk => decide (bk.id = bid)) (fun bk => bk.id) b
        (cancelledRow b now) hfind (by simp [cancelledRow, hbid]) rfl hprev
      exact this
    unfold cancel_booking
    rw [hbkx]
    simp only [hfind2]
    rw [if_pos (show (cancelledRow b now).status =
      EventBookingStatus.cancelled from rfl)]
  constructor
  · -- stored line mapping path
    intro l hpr hlne hex
    have hprefneg : ¬(b.payment_reference = [] ∨
        b.payment_reference.take 6 ≠ linesTag) := by
      rw [hpr]
      push_neg
      exact ⟨encodeLines_ne_nil l, encodeLines_take_tag l⟩
    have hexD : ∀ p ∈ l.foldl (fun m p => upsert m (natToChars p.1) p.2) [],
        ∃ tt ∈ st.ticket_types, natToChars tt.id = p.1 := by
      intro p hp
      rcases fold_upsert_keys l [] p hp with hin | ⟨q, hq, hqk⟩
      · simp at hin
      · obtain ⟨tt, htt, hid⟩ := hex q hq
        exact ⟨tt, htt, by rw [hid, hqk]⟩
    have hrel := releaseAll_eq _ st.ticket_types hexD
    have hparse2 := parseCounts_encodeLines l hlne
    have hcancel : cancel_booking st bid now =
        .ok (cancelledRow b now,
          ⟨st.ticket_types.map (fun tt => { tt with available_quantity := tt.available_quantity + countsFor (natToChars tt.id) (l.foldl (fun m p => upsert m (natToChars p.1) p.2) []) }),
          st.bookings.map (fun x => if x.id = b.id then cancelledRow b now else x),
          st.tickets.map (fun t => if t.booking_id = b.id then { t with status := EventTicketStatus.cancelled } else t),
          st.next_id⟩) := by
      unfold cancel_booking
      simp only [hfind]
      rw [if_neg hncanc]
      rw [if_neg hprefneg]
      rw [hpr]
      simp only [hparse2, hrel]
    refine ⟨_, hcancel, rfl, rfl, ?_, hticketsCancelled, hsecond _ rfl⟩
    show st.ticket_types.map _ = st.ticket_types.map _
    apply List.map_congr_left
    intro tt _
    have hcount : countsFor (natToChars tt.id)
        (l.foldl (fun m p => upsert m (natToChars p.1) p.2) []) =
        ((l.filter (fun p => p.1 = tt.id)).map (fun p => p.2)).sum := by
      rw [countsFor_fold (natToChars tt.id) l [] (by simp)]
      have hfe : l.filter (fun p => natToChars p.1 = natToChars tt.id) =
          l.filter (fun p => p.1 = tt.id) := by
        apply List.filter_congr
        intro p _
        by_cases hp : p.1 = tt.id
        · simp [hp]
        · simp only [decide_eq_decide]
          constructor
          · intro hh; exact absurd (natToChars_inj hh) hp
          · intro hh; exact absurd hh hp
      rw [hfe]
      simp [countsFor]
    rw [hcount]
  · -- reconstruction-from-tickets path
    intro hcond hexT
    have hexD : ∀ p ∈ (st.tickets.filter (fun t => t.booking_id = b.id)).foldl
        (fun acc t => upsert acc (natToChars t.ticket_type_id) 1) [],
        ∃ tt ∈ st.ticket_types, natToChars tt.id = p.1 := by
      intro p hp
      rcases ticketFold_keys _ [] p hp with hin | ⟨t, ht, htk⟩
      · simp at hin
      · have htm := List.mem_of_mem_filter ht
        have htb : t.booking_id = b.id := by
          have := List.of_mem_filter ht
          simpa using this
        obtain ⟨tt, htt, hid⟩ := hexT t htm htb
        exact ⟨tt, htt, by rw [hid, htk]⟩
    have hrel := releaseAll_eq _ st.ticket_types hexD
    have hcancel : cancel_booking st bid now =
        .ok (cancelledRow b now,
          ⟨st.ticket_types.map (fun tt => { tt with available_quantity := tt.available_quantity + countsFor (natToChars tt.id) ((st.tickets.filter (fun t => t.booking_id = b.id)).foldl (fun acc t => upsert acc (natToChars t.ticket_type_id) 1) []) }),
          st.bookings.map (fun x => if x.id = b.id then cancelledRow b now else x),
          st.tickets.map (fun t => if t.booking_id = b.id then { t with status := EventTicketStatus.cancelled } else t),
          st.next_id⟩) := by
      unfold cancel_booking
      simp only [hfind]
      rw [if_neg hncanc]
      rw [if_pos hcond]
      simp only [hrel]
    refine ⟨_, hcancel, rfl, rfl, ?_, hticketsCancelled, hsecond _ rfl⟩
    show st.ticket_types.map _ = st.ticket_types.map _
    apply List.map_congr_left
    intro tt _
    have hcount : countsFor (natToChars tt.id)
        ((st.tickets.filter (fun t => t.booking_id = b.id)).foldl
          (fun acc t => upsert acc (natToChars t.ticket_type_id) 1) []) =
        ((st.tickets.filter (fun t => t.booking_id = b.id)).filter
          (fun t => t.ticket_type_id = tt.id)).length := by
      rw [countsFor_ticketFold (natToChars tt.id) _ [] (by simp)]
      have hfe : (st.tickets.filter (fun t => t.booking_id = b.id)).filter
          (fun t => natToChars t.ticket_type_id = natToChars tt.id) =
          (st.tickets.filter (fun t => t.booking_id = b.id)).filter
            (fun t => t.ticket_type_id = tt.id) := by
        apply List.filter_congr
        intro t _
        by_cases hp : t.ticket_type_id = tt.id
        · simp [hp]
        · simp only [decide_eq_decide]
          constructor
          · intro hh; exact absurd (natToChars_inj hh) hp
          · intro hh; exact absurd hh hp
      rw [hfe]
      simp [countsFor]
    rw [hcount]

/-- Ticket type fixture after 3 of 5 units were reserved. -/
def tt5 : EventTicketType := ⟨1, 2, "General", 50, 5, 2, 3, true⟩

/-- Pending booking fixture holding 3 reserved units of type 1. -/
def b5 : EventBooking := newEventBooking 100 listingEv 7 3 150 "n" "e" [(1, 3)]

/-- State fixture for the C5 witness's stored-mapping path. -/
def st5 : TicketState := ⟨[tt5], [b5], [], 101⟩

/-- Confirmed booking whose `payment_reference` was overwritten (empty), so
cancellation must reconstruct the counts from its materialized ticket. -/
def b7 : EventBooking :=
  ⟨100, 2, 7, 1, 50, "n", "e", .confirmed, some 5, none, "", []⟩

/-- Materialized valid ticket of `b7` (type 1). -/
def tk7 : EventTicket := ⟨60, 100, 1, 21, 21, "n", "e", .valid, none⟩

/-- State fixture for the C5 witness's reconstruction path. -/
def st7 : TicketState := ⟨[tt5], [b7], [tk7], 400⟩

/-- C5 witness: cancelling the pending 3-unit booking via its stored line
mapping restores the 3 units, and cancelling the confirmed booking whose
mapping was lost restores 1 unit reconstructed from its materialized
ticket; in both runs a second cancel is a no-op. -/
theorem c5_witness :
    (∃ st', cancel_booking st5 100 9 = .ok (cancelledRow b5 9, st') ∧
      (cancelledRow b5 9).status = .cancelled ∧
      (cancelledRow b5 9).cancelled_at = some 9 ∧
      st'.ticket_types = st5.ticket_types.map (fun tt => { tt with available_quantity := tt.available_quantity + (([(1, 3)].filter (fun p => p.1 = tt.id)).map (fun p => p.2)).sum }) ∧
      (∀ t ∈ st'.tickets, t.booking_id = b5.id → t.status = .cancelled) ∧
      cancel_booking st' 100 10 = .ok (cancelledRow b5 9, st')) ∧
    (∃ st', cancel_booking st7 100 9 = .ok (cancelledRow b7 9, st') ∧
      (cancelledRow b7 9).status = .cancelled ∧
      (cancelledRow b7 9).cancelled_at = some 9 ∧
      st'.ticket_types = st7.ticket_types.map (fun tt => { tt with available_quantity := tt.available_quantity + ((st7.tickets.filter (fun t => t.booking_id = b7.id)).filter (fun t => t.ticket_type_id = tt.id)).length }) ∧
      (∀ t ∈ st'.tickets, t.booking_id = b7.id → t.status = .cancelled) ∧
      cancel_booking st' 100 10 = .ok (cancelledRow b7 9, st')) :=
  ⟨(c5_cancel_booking st5 100 b5 9 10 rfl (Or.inl rfl)).1 [(1, 3)] rfl
      (by decide) (by decide),
    (c5_cancel_booking st7 100 b7 9 10 rfl (Or.inr rfl)).2 (Or.inl rfl)
      (by decide)⟩

/-- C5 counterexample to the claimed cap: reserve 3 of 5, edit the type's
total down to 2 (the serializer clamps `available_quantity` to 0), then
cancel the booking — the uncapped release leaves `available_quantity = 3`,
exceeding `total_quantity = 2`. -/
theorem c5_counterexample :
    ∃ bC stB stC bD stD,
      create_booking stA listingEv [(1, 3)] 7 "n" "e" = .ok (bC, stB) ∧
      update_ticket_type_total stB 1 2 = .ok stC ∧
      cancel_booking stC bC.id 9 = .ok (bD, stD) ∧
      ∃ tt ∈ stD.ticket_types, tt.total_quantity < tt.available_quantity := by
  refine ⟨_, _, _, _, _, rfl, rfl, rfl, ?_⟩
  decide

/-- C6 (amended): scanning a VALID ticket of a CONFIRMED booking marks it
USED with `used_at = now`; a second scan of the same code fails — but with
TicketNotUsable, because the used status already falsifies `can_be_used`
before the already-used check is reached; an unknown code fails NotFound. -/
theorem c6_use_ticket (st : TicketState) (t : EventTicket) (b : EventBooking)
    (code : Nat) (now now2 : Int)
    (hfind : st.tickets.find? (fun x => x.qr_code = code ∨ x.ticket_number = code) = some t)
    (hbfind : st.bookings.find? (fun bk => bk.id = t.booking_id) = some b)
    (hv : t.status = .valid) (hconf : b.status = .confirmed)
    (hnd : (st.tickets.map (fun x => x.id)).Nodup) :
    ∃ st', use_ticket_by_qr st code now = .ok (usedRow t now, st') ∧
      (usedRow t now).status = .used ∧
      (usedRow t now).used_at = some now ∧
      use_ticket_by_qr st' code now2 = .error .ticketNotUsable ∧
      (∀ st0 : TicketState, ∀ c : Nat, ∀ now0 : Int,
        st0.tickets.find? (fun x => x.qr_code = c ∨ x.ticket_number = c) = none →
        use_ticket_by_qr st0 c now0 = .error .notFound) := by
  have hmem := List.mem_of_find?_eq_some hfind
  have hp := List.find?_some hfind
  have hfirst : use_ticket_by_qr st code now =
      .ok (usedRow t now,
        ⟨st.ticket_types, st.bookings,
          st.tickets.map (fun x => if x.id = t.id then usedRow t now else x),
          st.next_id⟩) := by
    unfold use_ticket_by_qr
    simp only [hfind, hbfind]
    rw [if_neg (by rw [hv, hconf]; simp)]
    rw [if_neg (by rw [hv]; simp)]
  refine ⟨_, hfirst, rfl, rfl, ?_, ?_⟩
  · have hfind2 : (st.tickets.map (fun x => if x.id = t.id then
        usedRow t now else x)).find?
        (fun x => x.qr_code = code ∨ x.ticket_number = code) =
        some (usedRow t now) := by
      have hprev : ∀ x ∈ st.tickets,
          (decide (x.qr_code = code ∨ x.ticket_number = code)) = false →
          x.id ≠ t.id := by
        intro x hx hxf hxe
        have hxt : x = t :=
          List.inj_on_of_nodup_map hnd hx hmem hxe
        rw [hxt] at hxf
        rw [hxf] at hp
        exact Bool.noConfusion hp
      exact find?_map_update st.tickets
        (fun x => decide (x.qr_code = code ∨ x.ticket_number = code))
        (fun x => x.id) t (usedRow t now) hfind
        (by simpa [usedRow] using hp) rfl hprev
    show use_ticket_by_qr _ code now2 = _
    unfold use_ticket_by_qr
    simp only [hfind2]
    have hbfind2 : st.bookings.find?
        (fun bk => bk.id = (usedRow t now).booking_id) = some b := hbfind
    simp only [hbfind2]
    rw [if_pos (by rw [show (usedRow t now).status = EventTicketStatus.used from rfl]; simp)]
  · intro st0 c now0 hnone
    unfold use_ticket_by_qr
    rw [hnone]

/-- Confirmed event booking fixture for the ticket-scan scenarios. -/
def b6 : EventBooking :=
  ⟨100, 2, 7, 1, 50, "n", "e", .confirmed, some 5, none, "", []⟩

/-- Valid ticket fixture (qr code 11) attached to `b6`. -/
def tk6 : EventTicket := ⟨50, 100, 1, 11, 11, "n", "e", .valid, none⟩

/-- State fixture for the ticket-scan scenarios. -/
def st6 : TicketState := ⟨[ttA], [b6], [tk6], 300⟩

/-- C6 witness: scanning qr code 11 marks the ticket used, the second scan
fails with TicketNotUsable, and an unknown code fails NotFound. -/
theorem c6_witness :
    ∃ st', use_ticket_by_qr st6 11 7 = .ok (usedRow tk6 7, st') ∧
      (usedRow tk6 7).status = .used ∧
      (usedRow tk6 7).used_at = some 7 ∧
      use_ticket_by_qr st' 11 8 = .error .ticketNotUsable ∧
      (∀ st0 : TicketState, ∀ c : Nat, ∀ now0 : Int,
        st0.tickets.find? (fun x => x.qr_code = c ∨ x.ticket_number = c) = none →
        use_ticket_by_qr st0 c now0 = .error .notFound) :=
  c6_use_ticket st6 tk6 b6 11 7 8 rfl rfl rfl rfl (by decide)

/-- C6 counterexample to the claimed AlreadyUsed error: after a successful
scan, scanning the same code again raises TicketNotUsable — the `can_be_used`
check fires first, so the AlreadyUsed branch is unreachable. -/
theorem c6_counterexample :
    ∃ t1 st', use_ticket_by_qr st6 11 7 = .ok (t1, st') ∧
      use_ticket_by_qr st' 11 8 = .error .ticketNotUsable ∧
      use_ticket_by_qr st' 11 8 ≠ .error .ticketAlreadyUsed := by
  refine ⟨_, _, rfl, rfl, ?_⟩
  intro h
  have := Except.error.inj h
  exact KError.noConfusion this
